import Mathlib

/-!
Shallow embedding of the satori trading system's core decision logic,
translated from the repository sources:

* `src/src/ufo_trading_engine.py` — session gating, the portfolio equity
  stop, the new-trade gate (`should_open_new_trades`) and the position
  reinforcement decision (`should_reinforce_position`);
* `src/src/ufo_calculator.py` — percentage variation, currency strength
  generation and oscillation detection;
* `src/src/dynamic_reinforcement_engine.py` — event-driven reinforcement
  sizing (`calculate_dynamic_reinforcement`);
* `src/full_day_simulation.py` — mark-to-market and close-rule logic of
  the position ledger (`update_portfolio_value`).

Machine floats of the Python sources are modelled as exact rationals
(`ℚ`); where NaN/∞ propagation is semantically relevant
(`calculate_percentage_variation`) an explicit extended value type is
used.  Wall-clock readings (`datetime.utcnow()`, `time.time()`) are
passed as explicit parameters.
-/


/-- Time context extracted from `datetime.utcnow()` as the Python code
uses it: the London weekday (0 = Monday), the London time of day and the
GMT time of day, both in minutes since midnight. -/
structure TimeCtx where
  weekday : ℕ
  londonMin : ℕ
  gmtMin : ℕ
deriving DecidableEq, Repr

/-- Reason component of `should_trade_now`. -/
inductive TradeReason
  | weekend
  | activeSession
  | asianSession
  | betweenSessions
deriving DecidableEq, Repr

/-- Embeds `UFOTradingEngine.should_trade_now`: weekends block trading,
London (08:00–16:00 London time) or New York (13:00–22:00) sessions are
active, the Asian session (23:00–08:00) allows limited trading, and the
remaining gap blocks trading. -/
def shouldTradeNow (t : TimeCtx) : Bool × TradeReason :=
  let asian := 1380 ≤ t.londonMin ∨ t.londonMin ≤ 480
  let london := 480 ≤ t.londonMin ∧ t.londonMin ≤ 960
  let ny := 780 ≤ t.londonMin ∧ t.londonMin ≤ 1320
  if 5 ≤ t.weekday then (false, .weekend)
  else if london ∨ ny then (true, .activeSession)
  else if asian then (true, .asianSession)
  else (false, .betweenSessions)

/-- Reason component of `should_close_for_session_end`. -/
inductive SessionEndReason
  | weekendClosure
  | endOfAnalysisPeriod
  | normalHours
deriving DecidableEq, Repr

/-- Embeds `UFOTradingEngine.should_close_for_session_end` in the form it
is invoked from `should_open_new_trades`, i.e. with `economic_events =
None`, so only the two time rules apply: Friday from 21:00 London time,
or 20:00 GMT on any day. -/
def shouldCloseForSessionEnd (t : TimeCtx) : Bool × SessionEndReason :=
  if t.weekday = 4 ∧ 1260 ≤ t.londonMin then (true, .weekendClosure)
  else if 1200 ≤ t.gmtMin then (true, .endOfAnalysisPeriod)
  else (false, .normalHours)

/-- Detail component of `check_portfolio_equity_stop`. -/
inductive StopDetail
  | invalidBalance
  | breached
  | healthy
deriving DecidableEq, Repr

/-- Embeds `UFOTradingEngine.check_portfolio_equity_stop`: with the
configured (negative) stop threshold `stop`, the stop is breached when
the drawdown percentage `(equity - balance) / balance * 100` is less
than or equal to `stop`; a non-positive balance reports an invalid
balance instead. -/
def checkPortfolioEquityStop (stop balance equity : ℚ) : Bool × StopDetail :=
  if balance ≤ 0 then (false, .invalidBalance)
  else
    let drawdown := (equity - balance) / balance * 100
    if drawdown ≤ stop then (true, .breached)
    else (false, .healthy)

/-- Diversification/configuration parameters of `UFOTradingEngine`
relevant to `should_open_new_trades`. -/
structure EngineConfig where
  portfolioEquityStop : ℚ
  maxConcurrentPositions : ℕ
  targetPositionsWhenAvailable : ℕ
  minPositionsForSession : ℕ
deriving DecidableEq, Repr

/-- Default configuration values of `UFOTradingEngine.__init__`. -/
def defaultEngineConfig : EngineConfig :=
  { portfolioEquityStop := -5
    maxConcurrentPositions := 9
    targetPositionsWhenAvailable := 4
    minPositionsForSession := 2 }

/-- Reason component of `should_open_new_trades`. -/
inductive OpenReason
  | notTrading
  | sessionEnding
  | maximumDiversification
  | buildingDiversification
  | portfolioStop
  | qualityOpportunity
  | additionalDiversification
  | readyForNewTrades
deriving DecidableEq, Repr

/-- Embeds `UFOTradingEngine.should_open_new_trades`.  The checks are
performed in source order: (1) tradable session, (2) session end, (3)
position count at the maximum, (4) position count below the
diversification minimum (allow), (5) portfolio equity stop (only when a
portfolio status with a positive balance is supplied), (6) position
count below target (allow), (7) position count below maximum (allow),
(8) allow.  `portfolio` is `some (balance, equity)` when a portfolio
status dict is passed, `none` otherwise. -/
def shouldOpenNewTrades (cfg : EngineConfig) (t : TimeCtx) (count : ℕ)
    (portfolio : Option (ℚ × ℚ)) : Bool × OpenReason :=
  if ¬ (shouldTradeNow t).1 then (false, .notTrading)
  else if (shouldCloseForSessionEnd t).1 then (false, .sessionEnding)
  else if cfg.maxConcurrentPositions ≤ count then (false, .maximumDiversification)
  else if count < cfg.minPositionsForSession then (true, .buildingDiversification)
  else
    let afterStop :=
      if count < cfg.targetPositionsWhenAvailable then (true, OpenReason.qualityOpportunity)
      else if count < cfg.maxConcurrentPositions then (true, OpenReason.additionalDiversification)
      else (true, OpenReason.readyForNewTrades)
    match portfolio with
    | none => afterStop
    | some (balance, equity) =>
        if 0 < balance ∧ (checkPortfolioEquityStop cfg.portfolioEquityStop balance equity).1 then
          (false, .portfolioStop)
        else afterStop

/-- Removes every occurrence of the substring "-ECN" from a symbol name,
as `symbol.replace('-ECN', '')` does (left-to-right, non-overlapping). -/
def stripECN : List Char → List Char
  | [] => []
  | '-' :: 'E' :: 'C' :: 'N' :: rest => stripECN rest
  | c :: cs => c :: stripECN cs

/-- Boolean test that `pat` is an initial segment of the second list. -/
def startsWithList : List Char → List Char → Bool
  | [], _ => true
  | _ :: _, [] => false
  | a :: as, b :: bs => a == b && startsWithList as bs

/-- Boolean substring containment, the semantics of Python's
`needle in haystack` on strings. -/
def containsSub (needle : List Char) : List Char → Bool
  | [] => needle.isEmpty
  | b :: bs => startsWithList needle (b :: bs) || containsSub needle bs

/-- The JPY-quoted pair names listed in
`full_day_simulation.get_pip_value_multiplier`. -/
def jpyPairs : List (List Char) :=
  [['U','S','D','J','P','Y'], ['E','U','R','J','P','Y'], ['G','B','P','J','P','Y'],
   ['A','U','D','J','P','Y'], ['N','Z','D','J','P','Y'], ['C','H','F','J','P','Y'],
   ['C','A','D','J','P','Y']]

/-- Embeds `get_pip_value_multiplier`: after stripping "-ECN" and
upper-casing, symbols containing a JPY pair name use 1000, all others
10000. -/
def pipMultiplier (symbol : List Char) : ℚ :=
  let clean := (stripECN symbol).map Char.toUpper
  if jpyPairs.any (fun p => containsSub p clean) then 1000 else 10000

/-- Trade direction of a simulated position. -/
inductive Direction
  | buy
  | sell
deriving DecidableEq, Repr

/-- A position as tracked by `full_day_simulation`'s open-position list:
entry price, optional last marked price (`current_price` is absent until
the first successful mark), running P&L and optional peak P&L. -/
structure SimPosition where
  symbol : List Char
  direction : Direction
  volume : ℚ
  entryPrice : ℚ
  currentPrice : Option ℚ
  pnl : ℚ
  peakPnl : Option ℚ
deriving DecidableEq, Repr

/-- The last price known for a position, as `update_portfolio_value`
reads it: `position.get('current_price', position['entry_price'])`. -/
def lastKnownPrice (pos : SimPosition) : ℚ :=
  pos.currentPrice.getD pos.entryPrice

/-- Embeds the per-position mark-to-market step of
`update_portfolio_value`: when `get_historical_price_for_time` yields no
price (`priceOpt = none`) the entry price is used; the P&L is the signed
price difference (negated for SELL) times volume times the pip
multiplier, and the price used is stored as `current_price`. -/
def markPosition (pos : SimPosition) (priceOpt : Option ℚ) : SimPosition :=
  let currentPrice := priceOpt.getD pos.entryPrice
  let priceDiff0 := currentPrice - pos.entryPrice
  let priceDiff := if pos.direction = .sell then -priceDiff0 else priceDiff0
  { pos with
      currentPrice := some currentPrice
      pnl := priceDiff * pos.volume * pipMultiplier pos.symbol }

/-- Close reason assigned by `update_portfolio_value`. -/
inductive CloseReason
  | profitTarget
  | stopLoss
  | timeExit
  | trailingStop
deriving DecidableEq, Repr

/-- Embeds the close-rule evaluation of `update_portfolio_value` for one
position: the four close conditions (profit above 75, loss below −50,
age above 240 minutes when known, trailing stop after peak update), with
the close reason picked by the source's if/elif chain in the order
profit, loss, time, trailing.  Returns the updated peak P&L and the
close reason, if any.  `age` is `none` when the simulation has no
current time or the position carries no timestamp. -/
def evaluateCloseRules (peak : Option ℚ) (pnl : ℚ) (age : Option ℚ) :
    Option ℚ × Option CloseReason :=
  let closeOnProfit := decide (75 < pnl)
  let closeOnLoss := decide (pnl < -50)
  let closeOnTime := match age with
    | some a => decide (240 < a)
    | none => false
  let peakTrail : Option ℚ × Bool :=
    match peak with
    | none => (some pnl, false)
    | some p =>
        if p < pnl then (some pnl, false)
        else (some p, decide (30 < p ∧ pnl < p * (7 / 10)))
  if closeOnProfit || closeOnLoss || closeOnTime || peakTrail.2 then
    (peakTrail.1,
      some (if closeOnProfit then CloseReason.profitTarget
            else if closeOnLoss then CloseReason.stopLoss
            else if closeOnTime then CloseReason.timeExit
            else CloseReason.trailingStop))
  else (peakTrail.1, none)

/-- Concrete position refuting claim C8: its last successful mark was at
price 6/5, strictly different from its entry price 11/10. -/
def c8pos : SimPosition :=
  { symbol := ['E','U','R','U','S','D']
    direction := .buy
    volume := 1
    entryPrice := 11 / 10
    currentPrice := some (6 / 5)
    pnl := 0
    peakPnl := none }

/-- Extended value produced by pandas float arithmetic: a finite
(rational) value, positive or negative infinity, or NaN. -/
inductive FVal
  | val (q : ℚ)
  | inf
  | ninf
  | nan
deriving DecidableEq, Repr

/-- One step of `DataFrame.pct_change() * 100` under IEEE semantics:
with a previous close of 0, a zero current close yields NaN and a
nonzero one yields a signed infinity (which the multiplication by 100
preserves); otherwise the exact percentage change. -/
def pctChangeStep (prev cur : ℚ) : FVal :=
  if prev = 0 then
    if cur = 0 then .nan else if 0 < cur then .inf else .ninf
  else .val ((cur - prev) / prev * 100)

/-- Percentage change of each element against its predecessor, the
predecessor of the head being `prev`. -/
def pctChangeFrom (prev : ℚ) : List ℚ → List FVal
  | [] => []
  | c :: rest => pctChangeStep prev c :: pctChangeFrom c rest

/-- Embeds `price_data.pct_change() * 100`: the first bar has no
predecessor and yields NaN. -/
def pctChangeRaw : List ℚ → List FVal
  | [] => []
  | p :: rest => .nan :: pctChangeFrom p rest

/-- Embeds `fillna(0)`: NaN entries become 0; infinities are NOT NaN and
are left untouched. -/
def fillnaZero (l : List FVal) : List FVal :=
  l.map fun v => match v with
    | .nan => .val 0
    | w => w

/-- Embeds `UfoCalculator.calculate_percentage_variation` on one price
series: percentage change per bar followed by `fillna(0)`. -/
def calculatePercentageVariation (prices : List ℚ) : List FVal :=
  fillnaZero (pctChangeRaw prices)

/-- Signed contribution of one cross to one currency's performance in
`UfoCalculator.generate_ufo_data`: if the currency name occurs in the
cross name (Python substring test `currency in cross`), the cross's
cumulative series value is added when the currency equals the first
three characters (the base) and subtracted otherwise; crosses not
containing the currency contribute nothing. -/
def contribution (currency cross : List Char) (s : ℚ) : ℚ :=
  if containsSub currency cross then
    if currency = cross.take 3 then s else -s
  else 0

/-- Rolling mean of fixed window `w` over a series, as
`Series.rolling(window=w).mean()` computes it: entries with fewer than
`w` preceding samples (index `i` with `i + 1 < w`) are NaN (`none`);
later entries are the mean of the trailing `w` samples. -/
def rollingMeanRaw (w : ℕ) (xs : List ℚ) : List (Option ℚ) :=
  (List.range xs.length).map fun i =>
    if w ≤ i + 1 then some (((xs.drop (i + 1 - w)).take w).sum / (w : ℚ)) else none

/-- Embeds the final `fillna(0)` of `generate_ufo_data`: NaN entries of
the rolled series become 0. -/
def fillZeros (l : List (Option ℚ)) : List ℚ :=
  l.map fun o => o.getD 0

/-- Per-index signed sum of cumulative-series contributions of every
cross to one currency (`currency_performance` in `generate_ufo_data`),
for a shared index of length `n`. -/
def performanceSeries (currency : List Char) (table : List (List Char × List ℚ))
    (n : ℕ) : List ℚ :=
  (List.range n).map fun i => (table.map fun cs => contribution currency cs.1 (cs.2.getD i 0)).sum

/-- Embeds `UfoCalculator.generate_ufo_data` for one timeframe: for each
currency of the basket, the 20-bar rolling mean of its signed
performance sum, with NaN entries zero-filled. -/
def generateUfoData (currencies : List (List Char)) (table : List (List Char × List ℚ))
    (n : ℕ) : List (List Char × List ℚ) :=
  currencies.map fun c => (c, fillZeros (rollingMeanRaw 20 (performanceSeries c table n)))

/-- Mean of a window, as `Series.mean()` computes it. -/
def windowMean (xs : List ℚ) : ℚ :=
  xs.sum / (xs.length : ℚ)

/-- Sample variance of a window: `Series.std()` is the sample standard
deviation (ddof = 1), i.e. the square root of this quantity.  Divisions
by a non-positive denominator only arise for windows of length ≤ 1,
where pandas would return NaN; the classifier is only applied to the
20-element lookback window. -/
def sampleVariance (xs : List ℚ) : ℚ :=
  ((xs.map fun x => (x - windowMean xs) ^ 2).sum) / ((xs.length : ℚ) - 1)

/-- Last element of a window (`iloc[-1]`), 0 for an empty window. -/
def lastValue (xs : List ℚ) : ℚ :=
  xs.getLastD 0

/-- Trailing `n` elements of a series (`iloc[-n:]`). -/
def lastN (n : ℕ) (xs : List ℚ) : List ℚ :=
  xs.drop (xs.length - n)

/-- First differences of a series (`Series.diff().dropna()`). -/
def diffSeries (xs : List ℚ) : List ℚ :=
  List.zipWith (fun a b => a - b) (xs.drop 1) xs

/-- Number of adjacent sign changes in a difference list, as the loop of
`UfoCalculator._count_direction_changes` counts them (strictly positive
followed by strictly negative or vice versa). -/
def countSignChanges : List ℚ → ℕ
  | a :: b :: rest =>
      (if (0 < a ∧ b < 0) ∨ (a < 0 ∧ 0 < b) then 1 else 0) + countSignChanges (b :: rest)
  | _ => 0

/-- Embeds `UfoCalculator._count_direction_changes`: series shorter than
3 have no direction changes. -/
def countDirectionChanges (xs : List ℚ) : ℕ :=
  if xs.length < 3 then 0 else countSignChanges (diffSeries xs)

/-- The `is_trending` test of `detect_oscillations`: the last three
points of the window lie strictly on one side of the window mean. -/
def IsTrendingWindow (xs : List ℚ) : Prop :=
  (∀ x ∈ lastN 3 xs, windowMean xs < x) ∨ (∀ x ∈ lastN 3 xs, x < windowMean xs)

instance (xs : List ℚ) : Decidable (IsTrendingWindow xs) := by
  unfold IsTrendingWindow
  infer_instance

/-- Exact-arithmetic form of the z-score test `abs(z_score) > t` of
`detect_oscillations`, where `z_score = (last - mean)/std` if the sample
standard deviation is positive and 0 otherwise: since
`std = sqrt (sampleVariance xs)`, for `t > 0` the test is equivalent to
`0 < sampleVariance xs` together with
`t^2 * sampleVariance xs < (last - mean)^2`
(proved as `absZScoreGt_iff` below). -/
def AbsZSqGt (xs : List ℚ) (t : ℚ) : Prop :=
  0 < sampleVariance xs ∧
    t ^ 2 * sampleVariance xs < (lastValue xs - windowMean xs) ^ 2

instance (xs : List ℚ) (t : ℚ) : Decidable (AbsZSqGt xs t) := by
  unfold AbsZSqGt
  infer_instance

/-- Market state assigned to a currency by `detect_oscillations`. -/
inductive MarketState
  | trending
  | meanReversionOpportunity
  | oscillating
  | uncertain
deriving DecidableEq, Repr

/-- Embeds the per-currency classification of
`UfOCalculator.detect_oscillations` over the lookback window: trending
if the last three points lie strictly on one side of the mean and
`abs z > 1.5`; else mean-reversion opportunity if `abs z > 2`; else
oscillating if at least 3 direction changes and volatility (sample
standard deviation) above 0.5, i.e. sample variance above 1/4; else
uncertain. -/
def classifyWindow (xs : List ℚ) : MarketState :=
  if IsTrendingWindow xs ∧ AbsZSqGt xs (3 / 2) then .trending
  else if AbsZSqGt xs 2 then .meanReversionOpportunity
  else if 3 ≤ countDirectionChanges xs ∧ (1 / 4 : ℚ) < sampleVariance xs then .oscillating
  else .uncertain

/-- Embeds `detect_oscillations` for one currency series with at least
`oscillation_lookback = 20` samples: the classification of the trailing
20-element window (`iloc[-20:]`). -/
def detectOscillationState (series : List ℚ) : MarketState :=
  classifyWindow (lastN 20 series)

/-- Spec-level z-score test, worded as the claim words it: the z-score
`(last - mean)/std` (0 when the standard deviation `√variance` is 0) has
absolute value above `t`. -/
def AbsZScoreGt (xs : List ℚ) (t : ℚ) : Prop :=
  0 < Real.sqrt (sampleVariance xs) ∧
    (t : ℝ) * Real.sqrt (sampleVariance xs) < |((lastValue xs - windowMean xs : ℚ) : ℝ)|

/-- Spec-level volatility test of the oscillating branch: sample
standard deviation above 0.5. -/
def VolatilityGtHalf (xs : List ℚ) : Prop :=
  (1 / 2 : ℝ) < Real.sqrt (sampleVariance xs)

/-- Concrete all-zero 20-bar strength series used to witness C9. -/
def c9series : List ℚ := List.replicate 20 0

/-- Configuration of `DynamicReinforcementEngine` relevant to
`calculate_dynamic_reinforcement`. -/
structure DynConfig where
  maxReinforcements : ℕ
  coolingPeriodMinutes : ℚ
  sessionBasedReinforcement : Bool
  adaptiveLotSizing : Bool
deriving DecidableEq, Repr

/-- Defaults of `DynamicReinforcementEngine.__init__`:
`max_reinforcements_per_position = 3`,
`reinforcement_cooling_period_minutes = 15`, both adaptive features
enabled. -/
def defaultDynConfig : DynConfig :=
  { maxReinforcements := 3
    coolingPeriodMinutes := 15
    sessionBasedReinforcement := true
    adaptiveLotSizing := true }

/-- Entry of `position_reinforcement_history` for one position id:
reinforcement count, timestamp (seconds) of the last reinforcement and
cumulative added size. -/
structure ReinforcementRecord where
  count : ℕ
  lastTime : Option ℚ
  totalSize : ℚ
deriving DecidableEq, Repr

/-- Market event kinds produced by `detect_market_events`. -/
inductive EventKind
  | priceMovement
  | rapidLoss
  | ufoSignalChange
deriving DecidableEq, Repr

/-- Event priorities carried by market events. -/
inductive EventPriority
  | low
  | medium
  | high
  | critical
deriving DecidableEq, Repr

/-- The event-type × priority multiplier table of
`calculate_dynamic_reinforcement`; combinations missing from the Python
dict default to 1.0 via `.get(..., 1.0)`. -/
def eventMultiplier : EventKind → EventPriority → ℚ
  | .priceMovement, .high => 6 / 5
  | .priceMovement, .medium => 1
  | .priceMovement, .low => 4 / 5
  | .priceMovement, .critical => 1
  | .rapidLoss, .critical => 3 / 2
  | .rapidLoss, .high => 13 / 10
  | .rapidLoss, .medium => 11 / 10
  | .rapidLoss, .low => 1
  | .ufoSignalChange, .high => 7 / 5
  | .ufoSignalChange, .medium => 11 / 10
  | .ufoSignalChange, .low => 9 / 10
  | .ufoSignalChange, .critical => 1

/-- Embeds `DynamicReinforcementEngine._get_session_multiplier` as a
function of the London hour: asian 0.7, london 1.0, overlap 1.5, NY 1.2,
else 1.0. -/
def sessionMultiplier (londonHour : ℕ) : ℚ :=
  if 23 ≤ londonHour ∨ londonHour < 8 then 7 / 10
  else if londonHour < 13 then 1
  else if londonHour < 16 then 3 / 2
  else if londonHour < 22 then 6 / 5
  else 1

/-- Embeds `_calculate_volatility_adjustment`: the spread (defaulting to
the 1-pip baseline when the symbol is missing, giving ratio 1) is
compared to the 0.0001 normal-spread baseline; ratio above 3 scales by
0.7, above 2 by 0.85, otherwise 1.0. -/
def volatilityAdjustment (spread : Option ℚ) : ℚ :=
  match spread with
  | none => 1
  | some sp =>
      let r := sp / (1 / 10000)
      if 3 < r then 7 / 10
      else if 2 < r then 17 / 20
      else 1

/-- Outcome label of `calculate_dynamic_reinforcement`. -/
inductive DynReinforceStatus
  | maximumReached
  | coolingActive
  | calculated
deriving DecidableEq, Repr

/-- Plan returned by `calculate_dynamic_reinforcement`. -/
structure DynPlan where
  additionalLots : ℚ
deriving DecidableEq, Repr

/-- Embeds `DynamicReinforcementEngine.calculate_dynamic_reinforcement`:
the count gate and the cooling-period gate are evaluated before any
sizing arithmetic; otherwise the plan size is 30% of the original
volume, scaled by the event, session and volatility multipliers and
clamped by `max(0.01, min(final_size, original_volume))`. -/
def calculateDynamicReinforcement (cfg : DynConfig) (hist : Option ReinforcementRecord)
    (volume : ℚ) (ekind : EventKind) (prio : EventPriority)
    (spread : Option ℚ) (londonHour : ℕ) (now : ℚ) :
    Option DynPlan × DynReinforceStatus :=
  let count := (hist.map (·.count)).getD 0
  if cfg.maxReinforcements ≤ count then (none, .maximumReached)
  else
    let cooling := match hist.bind (·.lastTime) with
      | some lt => decide ((now - lt) / 60 < cfg.coolingPeriodMinutes)
      | none => false
    if cooling then (none, .coolingActive)
    else
      let baseSize := volume * (3 / 10)
      let em := eventMultiplier ekind prio
      let sm := if cfg.sessionBasedReinforcement then sessionMultiplier londonHour else 1
      let vm := if cfg.adaptiveLotSizing then volatilityAdjustment spread else 1
      let finalSize := baseSize * em * sm * vm
      (some ⟨max (1 / 100) (min finalSize volume)⟩, .calculated)

/-- Removes the remaining dashes of a symbol after the "-ECN" strip, as
`symbol.replace('-ECN', '').replace('-', '')` does. -/
def cleanSymbol (symbol : List Char) : List Char :=
  (stripECN symbol).filter fun c => !(c == '-')

/-- Timing classification returned by `detect_early_late_entry`; the
error constructors model the early returns for a symbol missing from the
market data and for the exception handler (reached on a zero entry
price, where Python's division raises). -/
inductive TimingType
  | noTiming
  | tooEarly
  | tooLate
  | minorTimingIssue
  | noMarketData
  | errorDetecting
deriving DecidableEq, Repr

/-- An MT5-style position dict as `should_reinforce_position` reads it:
`type` is 0 for BUY and 1 for SELL, `profit` the running P&L, `volume`
the original lots, `open_price` the entry and `time` the entry timestamp
in seconds. -/
structure MTPosition where
  symbol : List Char
  ptype : ℕ
  profit : ℚ
  volume : ℚ
  openPrice : ℚ
  entryTime : ℚ
deriving DecidableEq, Repr

/-- Embeds `UFOTradingEngine.detect_early_late_entry` with the market
data modelled as a partial map from symbol to current close and the
wall-clock reading `time.time()` passed as `now` (seconds).  Returns
(timing-error flag, timing classification, immediate drawdown %). -/
def detectEarlyLateEntry (pos : MTPosition) (md : List Char → Option ℚ) (now : ℚ) :
    Bool × TimingType × ℚ :=
  match md pos.symbol with
  | none => (false, .noMarketData, 0)
  | some currentPrice =>
      if pos.openPrice = 0 then (false, .errorDetecting, 0)
      else
        let priceMovement :=
          if pos.ptype = 0 then (currentPrice - pos.openPrice) / pos.openPrice * 100
          else (pos.openPrice - currentPrice) / pos.openPrice * 100
        let immediateDrawdown := if priceMovement < 0 then -priceMovement else 0
        let ageMinutes := (now - pos.entryTime) / 60
        let isEarlyLate :=
          decide ((1 / 2 < immediateDrawdown ∧ ageMinutes < 30) ∨ pos.profit < -(4 / 5))
        let timingErr :=
          if isEarlyLate then
            if 1 < immediateDrawdown then
              if ageMinutes < 15 then TimingType.tooEarly else TimingType.tooLate
            else TimingType.minorTimingIssue
          else TimingType.noTiming
        (isEarlyLate, timingErr, immediateDrawdown)

/-- Plan type labels of `should_reinforce_position`. -/
inductive PlanType
  | compensateEarlyEntry
  | compensateLateEntry
  | standardReinforcement
deriving DecidableEq, Repr

/-- Reinforcement plan dict of `should_reinforce_position`. -/
structure ReinforcementPlan where
  ptype : PlanType
  additionalLots : ℚ
  drawdown : ℚ
deriving DecidableEq, Repr

/-- Reason labels of `should_reinforce_position`'s returned message. -/
inductive ReinforceReason
  | missingAnalysis
  | invalidSymbolFormat
  | reinforce
  | analysisChanged
  | holdPosition
deriving DecidableEq, Repr

/-- Embeds `UFOTradingEngine.should_reinforce_position`.  The currency
strength lookup `_get_currency_strength(currency, current_analysis)`
(which returns 0.0 for missing currencies) is modelled by the total
function carried inside `analysis`; `analysis = none` models
`current_analysis is None`.  Note the source consults no reinforcement
count or history anywhere in this function. -/
def shouldReinforcePosition (pos : MTPosition) (analysis : Option (List Char → ℚ))
    (md : List Char → Option ℚ) (now : ℚ) :
    Bool × ReinforceReason × Option ReinforcementPlan :=
  match analysis with
  | none => (false, .missingAnalysis, none)
  | some strength =>
      let clean := cleanSymbol pos.symbol
      if 6 ≤ clean.length then
        let baseStrength := strength (clean.take 3)
        let quoteStrength := strength ((clean.drop 3).take 3)
        let originalThesis : Bool :=
          if pos.ptype = 0 then decide (quoteStrength < baseStrength)
          else decide (baseStrength < quoteStrength)
        let tRes := detectEarlyLateEntry pos md now
        let plan : Option ReinforcementPlan :=
          if originalThesis && decide (pos.profit < 0) then
            if tRes.1 then
              match tRes.2.1 with
              | TimingType.tooEarly =>
                  some ⟨.compensateEarlyEntry, min (pos.volume * (1 / 2)) pos.volume, tRes.2.2⟩
              | TimingType.tooLate =>
                  some ⟨.compensateLateEntry,
                    min (pos.volume * (3 / 10)) (pos.volume * (1 / 2)), tRes.2.2⟩
              | _ => none
            else if pos.profit < -(3 / 2) then
              some ⟨.standardReinforcement, min (pos.volume * (2 / 5)) pos.volume, |pos.profit|⟩
            else none
          else none
        match plan with
        | some p => (true, .reinforce, some p)
        | none =>
            if originalThesis then (false, .holdPosition, none)
            else (false, .analysisChanged, none)
      else (false, .invalidSymbolFormat, none)

/-- Concrete inputs on which `should_reinforce_position` returns a
"compensate early entry" plan: a BUY EURUSD position opened 10 minutes
ago at 2, now quoted 1 (immediate drawdown 50%), losing 2 with the base
currency still stronger than the quote. -/
def c4pos : MTPosition :=
  { symbol := ['E','U','R','U','S','D']
    ptype := 0
    profit := -2
    volume := 1
    openPrice := 2
    entryTime := 0 }

/-- Strength lookup for the C4 counterexample: EUR at 2, every other
currency at 1, so the BUY thesis (base stronger than quote) holds. -/
def c4strength : List Char → ℚ :=
  fun c => if c = ['E','U','R'] then 2 else 1

/-- Market data for the C4 counterexample: EURUSD quoted at 1. -/
def c4md : List Char → Option ℚ :=
  fun c => if c = ['E','U','R','U','S','D'] then some 1 else none

/-- A reinforcement-history record whose count already equals the
configured maximum (`max_reinforcements_per_position = 3`). -/
def c4record : ReinforcementRecord :=
  { count := 3
    lastTime := none
    totalSize := 3 / 2 }

/-- Claim C2: for every positive account balance, the portfolio equity
stop reports a breach exactly when the drawdown percentage
`(equity - balance) / balance * 100` is at most the configured negative
threshold. -/
theorem c2_equity_stop_breach_iff (stop balance equity : ℚ) (hb : 0 < balance) :
    (checkPortfolioEquityStop stop balance equity).1 = true ↔
      (equity - balance) / balance * 100 ≤ stop := by
  have hb' : ¬ balance ≤ 0 := not_le.mpr hb
  by_cases h : (equity - balance) / balance * 100 ≤ stop <;>
    simp [checkPortfolioEquityStop, hb', h]

/-- Witness for C2 at the spec's concrete inputs: with the default −5%
threshold, balance 10000 and equity 9400 breach the stop (drawdown −6%)
while equity 9600 does not (drawdown −4%). -/
theorem c2_equity_stop_breach_iff_witness :
    (checkPortfolioEquityStop (-5) 10000 9400).1 = true ∧
      (checkPortfolioEquityStop (-5) 10000 9600).1 ≠ true :=
  ⟨(c2_equity_stop_breach_iff (-5) 10000 9400 (by norm_num)).mpr (by norm_num),
   fun h => by
    have := (c2_equity_stop_breach_iff (-5) 10000 9600 (by norm_num)).mp h
    norm_num at this⟩

/-- Claim C1: in a tradable session that is not ending, with the open
position count strictly below the diversification minimum and strictly
below the maximum, `should_open_new_trades` allows new trades with the
"building diversification" reason even when the portfolio equity stop is
simultaneously breached: the diversification floor (check 4) is reached
before the equity-stop check (check 5), so the floor wins. -/
theorem c1_diversification_floor_beats_equity_stop (cfg : EngineConfig) (t : TimeCtx)
    (count : ℕ) (balance equity : ℚ)
    (hsess : (shouldTradeNow t).1 = true)
    (hend : (shouldCloseForSessionEnd t).1 = false)
    (hmin : count < cfg.minPositionsForSession)
    (hmax : count < cfg.maxConcurrentPositions)
    (hstop : (checkPortfolioEquityStop cfg.portfolioEquityStop balance equity).1 = true) :
    shouldOpenNewTrades cfg t count (some (balance, equity)) =
      (true, .buildingDiversification) := by
  have hmax' : ¬ cfg.maxConcurrentPositions ≤ count := not_le.mpr hmax
  simp [shouldOpenNewTrades, hsess, hend, hmax', hmin]

/-- Witness for C1: Wednesday 10:00 London/GMT (tradable, not ending),
one open position with the default minimum of two and maximum of nine,
balance 10000 and equity 9000 (drawdown −10%, breaching the default −5%
stop): new trades are still allowed for diversification. -/
theorem c1_diversification_floor_beats_equity_stop_witness :
    shouldOpenNewTrades defaultEngineConfig ⟨2, 600, 600⟩ 1 (some (10000, 9000)) =
      (true, .buildingDiversification) :=
  c1_diversification_floor_beats_equity_stop defaultEngineConfig ⟨2, 600, 600⟩ 1 10000 9000
    (by decide) (by decide) (by decide) (by decide)
    (by norm_num [checkPortfolioEquityStop, defaultEngineConfig])

/-- Claim C3: the close reason follows the fixed precedence take-profit
(P&L > 75), stop-loss (P&L < −50), time exit (age > 240 minutes),
trailing stop (recorded peak above 30 and current P&L below 70% of that
peak), each characterised by an iff; and the spec's concrete cases: P&L
80 at age 300 closes for take profit (not time exit), peak 40 with P&L
fallen to 27 closes by trailing stop, fallen only to 29 does not
close. -/
theorem c3_close_rule_precedence :
    (∀ (peak : Option ℚ) (pnl : ℚ) (age : Option ℚ),
      ((evaluateCloseRules peak pnl age).2 = some CloseReason.profitTarget ↔ 75 < pnl) ∧
      ((evaluateCloseRules peak pnl age).2 = some CloseReason.stopLoss ↔
        ¬ 75 < pnl ∧ pnl < -50) ∧
      ((evaluateCloseRules peak pnl age).2 = some CloseReason.timeExit ↔
        ¬ 75 < pnl ∧ ¬ pnl < -50 ∧ ∃ a, age = some a ∧ 240 < a) ∧
      ((evaluateCloseRules peak pnl age).2 = some CloseReason.trailingStop ↔
        ¬ 75 < pnl ∧ ¬ pnl < -50 ∧ (∀ a, age = some a → ¬ 240 < a) ∧
          ∃ p, peak = some p ∧ 30 < p ∧ pnl < p * (7 / 10))) ∧
    (evaluateCloseRules none 80 (some 300)).2 = some CloseReason.profitTarget ∧
    (evaluateCloseRules (some 40) 27 (some 10)).2 = some CloseReason.trailingStop ∧
    (evaluateCloseRules (some 40) 29 (some 10)).2 = none := by
  refine ⟨fun peak pnl age => ?_, by norm_num [evaluateCloseRules],
    by norm_num [evaluateCloseRules], by norm_num [evaluateCloseRules]⟩
  have htr : ∀ q : ℚ, 30 < q → pnl < q * (7 / 10) → pnl < q := by
    intro q h30 h7
    nlinarith
  rcases age with _ | a <;> rcases peak with _ | p <;>
    simp only [evaluateCloseRules, Bool.or_eq_true, decide_eq_true_eq] <;>
    split_ifs <;>
    simp_all <;>
    first
      | omega
      | (intro h30; nlinarith)

/-- Counterexample to claim C8 as stated: when no current price is
available, `update_portfolio_value` marks the position at its ENTRY
price, not at the last-known price: for a position whose last-known
price (6/5) differs from its entry price (11/10), the mark after a
missing price is not the last-known price. -/
theorem c8_counterexample_not_last_known :
    (markPosition c8pos none).currentPrice ≠ some (lastKnownPrice c8pos) := by
  simp only [markPosition, lastKnownPrice, c8pos, Option.getD_none, Option.getD_some,
    Option.some.injEq]
  norm_num

/-- Claim C8 amended: during mark-to-market, when no current price is
available for a position's symbol, the position is marked at its entry
price (a defined value, though not the last-known price), so its P&L for
that pass is exactly 0. -/
theorem c8_missing_price_marks_entry_price (pos : SimPosition) :
    (markPosition pos none).currentPrice = some pos.entryPrice ∧
      (markPosition pos none).pnl = 0 := by
  cases hd : pos.direction <;> simp [markPosition, hd]

/-- Indexing lemma for `pctChangeFrom`: the entry after position `i` is
the percentage step from the element at `i` to the element at `i+1`. -/
theorem pctChangeFrom_get_succ (prev : ℚ) (xs : List ℚ) (i : ℕ) (a b : ℚ)
    (ha : xs.get? i = some a) (hb : xs.get? (i + 1) = some b) :
    (pctChangeFrom prev xs).get? (i + 1) = some (pctChangeStep a b) := by
  induction xs generalizing prev i with
  | nil => simp at ha
  | cons c rest ih =>
      cases i with
      | zero =>
          have hac : c = a := by simpa using ha
          cases rest with
          | nil => simp at hb
          | cons d rest' =>
              have hbd : d = b := by simpa using hb
              subst hac hbd
              rfl
      | succ j =>
          have ha' : rest.get? j = some a := by simpa using ha
          have hb' : rest.get? (j + 1) = some b := by simpa using hb
          simpa [pctChangeFrom] using ih c j ha' hb'

/-- Counterexample to claim C6 as stated: a divide-by-zero step whose
current close is nonzero is mapped to positive infinity, not to 0 — on
the price series `[0, 1]` the second entry of
`calculate_percentage_variation` is `inf`. -/
theorem c6_counterexample_inf_not_zero :
    calculatePercentageVariation [0, 1] = [FVal.val 0, FVal.inf] ∧
      FVal.inf ≠ FVal.val 0 := by
  constructor
  · simp [calculatePercentageVariation, pctChangeRaw, pctChangeFrom, pctChangeStep, fillnaZero]
  · simp

/-- Claim C6 amended: `calculate_percentage_variation` is total — it
returns one entry per bar and never fails — and maps the first bar and
any 0-to-0 step to 0; a step whose previous close is 0 and whose current
close is nonzero yields a signed infinity (not 0). -/
theorem c6_variation_total_and_zero_cases (prices : List ℚ) :
    (calculatePercentageVariation prices).length = prices.length ∧
      (∀ q : ℚ, prices.get? 0 = some q →
        (calculatePercentageVariation prices).get? 0 = some (FVal.val 0)) ∧
      (∀ (i : ℕ) (c : ℚ), prices.get? i = some 0 → prices.get? (i + 1) = some c →
        (calculatePercentageVariation prices).get? (i + 1) =
          some (if c = 0 then FVal.val 0
                else if 0 < c then FVal.inf else FVal.ninf)) := by
  refine ⟨?_, ?_, ?_⟩
  · cases prices with
    | nil => rfl
    | cons p rest =>
        simp only [calculatePercentageVariation, pctChangeRaw, fillnaZero, List.map_cons,
          List.length_cons, List.length_map]
        have : ∀ (prev : ℚ) (xs : List ℚ), (pctChangeFrom prev xs).length = xs.length := by
          intro prev xs
          induction xs generalizing prev with
          | nil => rfl
          | cons c rest' ih => simp [pctChangeFrom, ih]
        simp [this]
  · intro q hq
    cases prices with
    | nil => simp at hq
    | cons p rest => rfl
  · intro i c h0 hc
    cases prices with
    | nil => simp at h0
    | cons p rest =>
        have hstep : (pctChangeFrom p rest).get? i = some (pctChangeStep 0 c) := by
          cases i with
          | zero =>
              have hp : p = 0 := by simpa using h0
              cases rest with
              | nil => simp at hc
              | cons d rest' =>
                  have hdc : d = c := by simpa using hc
                  subst hp hdc
                  rfl
          | succ j =>
              exact pctChangeFrom_get_succ p rest j 0 c (by simpa using h0) (by simpa using hc)
        have : (calculatePercentageVariation (p :: rest)).get? (i + 1) =
            ((pctChangeFrom p rest).get? i).map fun v =>
              match v with
              | FVal.nan => FVal.val 0
              | w => w := by
          simp [calculatePercentageVariation, pctChangeRaw, fillnaZero, List.get?_map]
        rw [this, hstep]
        by_cases hc0 : c = 0
        · simp [pctChangeStep, hc0]
        · by_cases hcp : 0 < c <;> simp [pctChangeStep, hc0, hcp]

/-- Concrete witness for the amended C6 at the series `[0, 0, 5]`: three
entries, first entry 0, the 0-to-0 step maps to 0 and the 0-to-5 step
maps to positive infinity. -/
theorem c6_variation_total_and_zero_cases_witness :
    (calculatePercentageVariation [0, 0, 5]).length = 3 ∧
      (calculatePercentageVariation [0, 0, 5]).get? 0 = some (FVal.val 0) ∧
      (calculatePercentageVariation [0, 0, 5]).get? 1 = some (FVal.val 0) ∧
      (calculatePercentageVariation [0, 0, 5]).get? 2 = some FVal.inf := by
  obtain ⟨hlen, hfirst, hstep⟩ := c6_variation_total_and_zero_cases [0, 0, 5]
  refine ⟨hlen, hfirst 0 rfl, ?_, ?_⟩
  · simpa using hstep 0 0 rfl rfl
  · have h5 : ¬ (5 : ℚ) = 0 := by norm_num
    have h5' : (0 : ℚ) < 5 := by norm_num
    simpa [h5, h5'] using hstep 1 5 rfl rfl

theorem startsWithList_append (xs ys : List Char) :
    startsWithList xs (xs ++ ys) = true := by
  induction xs with
  | nil => rfl
  | cons a as ih => simp [startsWithList, ih]

theorem containsSub_self (n : List Char) : containsSub n n = true := by
  cases n with
  | nil => rfl
  | cons a as => simpa [containsSub] using Or.inl (startsWithList_append (a :: as) [])

theorem containsSub_append_right (n l1 l2 : List Char) (h : containsSub n l2 = true) :
    containsSub n (l1 ++ l2) = true := by
  induction l1 with
  | nil => simpa using h
  | cons b bs ih => simp [containsSub, ih]

/-- Claim C5: for a pair `A ++ B` in the basket with a three-letter base
`A` distinct from the quote part `B`, the signed strength contribution
of the pair to currency `A` (added as base) is exactly the negative of
the same pair's contribution to currency `B` (subtracted as quote), at
every cumulative-series value `s`, i.e. at every index before the
rolling mean is applied. -/
theorem c5_pair_contributions_opposite (A B : List Char) (s : ℚ)
    (hA : A.length = 3) (hne : A ≠ B) :
    contribution A (A ++ B) s = - contribution B (A ++ B) s := by
  have htakeA : (A ++ B).take 3 = A := by
    rw [← hA]
    exact List.take_left A B
  have hcontA : containsSub A (A ++ B) = true := by
    cases A with
    | nil =>
        cases B with
        | nil => rfl
        | cons b bs => simp [containsSub, startsWithList]
    | cons a as =>
        simpa [containsSub] using Or.inl (startsWithList_append (a :: as) B)
  have hcontB : containsSub B (A ++ B) = true :=
    containsSub_append_right B A B (containsSub_self B)
  have hBne : ¬ B = A := fun h => hne h.symm
  simp [contribution, hcontA, hcontB, htakeA, hBne]

/-- Witness for C5 at the concrete pair EURUSD: the contribution of the
cross to EUR is the negation of its contribution to USD. -/
theorem c5_pair_contributions_opposite_witness :
    contribution ['E','U','R'] (['E','U','R'] ++ ['U','S','D']) 7 =
      - contribution ['U','S','D'] (['E','U','R'] ++ ['U','S','D']) 7 :=
  c5_pair_contributions_opposite ['E','U','R'] ['U','S','D'] 7 (by decide) (by decide)

/-- Claim C10: on an index shorter than the 20-bar rolling window,
`generate_ufo_data` returns exactly zero for every currency of the
basket at every index — short series are zero-filled, never dropped and
never an error. -/
theorem c10_short_series_zero_filled (currencies : List (List Char))
    (table : List (List Char × List ℚ)) (n : ℕ) (hn : n < 20) :
    ∀ entry ∈ generateUfoData currencies table n, ∀ v ∈ entry.2, v = 0 := by
  intro entry hent v hv
  rw [generateUfoData, List.mem_map] at hent
  obtain ⟨c, -, rfl⟩ := hent
  have hlen : (performanceSeries c table n).length = n := by
    simp [performanceSeries]
  simp only [fillZeros, rollingMeanRaw, hlen, List.mem_map, List.mem_range] at hv
  obtain ⟨o, ⟨i, hi, rfl⟩, rfl⟩ := hv
  rw [if_neg (by omega)]
  rfl

/-- Witness for C10: a five-bar EURUSD table with a two-currency basket
yields all-zero strength series. -/
theorem c10_short_series_zero_filled_witness :
    5 < 20 ∧
      ∀ entry ∈ generateUfoData [['E','U','R'], ['U','S','D']]
          [(['E','U','R','U','S','D'], [1, 2, 3, 4, 5])] 5,
        ∀ v ∈ entry.2, v = 0 :=
  ⟨by norm_num,
   c10_short_series_zero_filled [['E','U','R'], ['U','S','D']]
     [(['E','U','R','U','S','D'], [1, 2, 3, 4, 5])] 5 (by norm_num)⟩

theorem sampleVariance_nonneg (xs : List ℚ) : 0 ≤ sampleVariance xs := by
  unfold sampleVariance
  rcases xs with _ | ⟨a, rest⟩
  · simp
  · apply div_nonneg
    · apply List.sum_nonneg
      intro x hx
      simp only [List.mem_map] at hx
      obtain ⟨y, -, rfl⟩ := hx
      positivity
    · rw [List.length_cons]
      push_cast
      linarith [Nat.cast_nonneg (α := ℚ) rest.length]

/-- The exact-arithmetic test agrees with the real z-score test for
positive thresholds. -/
theorem absZScoreGt_iff (xs : List ℚ) (t : ℚ) (ht : 0 < t) :
    AbsZScoreGt xs t ↔ AbsZSqGt xs t := by
  have hv0 : (0 : ℝ) ≤ ((sampleVariance xs : ℚ) : ℝ) := by
    exact_mod_cast sampleVariance_nonneg xs
  have htR : (0 : ℝ) < (t : ℚ) := by exact_mod_cast ht
  have hrw : Real.sqrt (((t : ℚ) : ℝ) ^ 2 * ((sampleVariance xs : ℚ) : ℝ)) =
      ((t : ℚ) : ℝ) * Real.sqrt ((sampleVariance xs : ℚ) : ℝ) := by
    rw [Real.sqrt_mul (by positivity), Real.sqrt_sq htR.le]
  unfold AbsZScoreGt AbsZSqGt
  constructor
  · rintro ⟨h1, h2⟩
    have hvpos : (0 : ℝ) < ((sampleVariance xs : ℚ) : ℝ) := Real.sqrt_pos.mp h1
    refine ⟨by exact_mod_cast hvpos, ?_⟩
    have habs : (0 : ℝ) < |((lastValue xs - windowMean xs : ℚ) : ℝ)| :=
      lt_of_le_of_lt (by positivity) h2
    have hsq := (Real.sqrt_lt' habs).mp (by rw [hrw]; exact h2)
    rw [sq_abs] at hsq
    exact_mod_cast hsq
  · rintro ⟨h1, h2⟩
    have hvpos : (0 : ℝ) < ((sampleVariance xs : ℚ) : ℝ) := by exact_mod_cast h1
    refine ⟨Real.sqrt_pos.mpr hvpos, ?_⟩
    have h2R : ((t : ℚ) : ℝ) ^ 2 * ((sampleVariance xs : ℚ) : ℝ) <
        ((lastValue xs - windowMean xs : ℚ) : ℝ) ^ 2 := by exact_mod_cast h2
    have h2Rabs : ((t : ℚ) : ℝ) ^ 2 * ((sampleVariance xs : ℚ) : ℝ) <
        |((lastValue xs - windowMean xs : ℚ) : ℝ)| ^ 2 := by rwa [sq_abs]
    have habs0 : (0 : ℝ) < |((lastValue xs - windowMean xs : ℚ) : ℝ)| := by
      rcases eq_or_lt_of_le (abs_nonneg ((lastValue xs - windowMean xs : ℚ) : ℝ)) with h | h
      · exfalso
        rw [← h] at h2Rabs
        nlinarith
      · exact h
    have := (Real.sqrt_lt' habs0).mpr h2Rabs
    rwa [hrw] at this

/-- The volatility test `std > 0.5` agrees with `variance > 1/4`. -/
theorem volatilityGtHalf_iff (xs : List ℚ) :
    VolatilityGtHalf xs ↔ (1 / 4 : ℚ) < sampleVariance xs := by
  unfold VolatilityGtHalf
  rw [Real.lt_sqrt (by norm_num)]
  constructor
  · intro h
    exact_mod_cast (by norm_num at h ⊢; exact h : ((1 / 4 : ℚ) : ℝ) < ((sampleVariance xs : ℚ) : ℝ))
  · intro h
    have : ((1 / 4 : ℚ) : ℝ) < ((sampleVariance xs : ℚ) : ℝ) := by exact_mod_cast h
    norm_num at this ⊢
    exact this

/-- Claim C9: for every strength series with at least the 20-bar
lookback, `detect_oscillations` classifies per the decision table —
trending iff the last three window points lie strictly on one side of
the window mean and the z-score (0 when the standard deviation is 0) has
absolute value above 1.5; else mean-reversion opportunity iff the
z-score's absolute value exceeds 2.0; else oscillating iff the first
differences change sign at least 3 times and the volatility exceeds 0.5;
else uncertain.  A zero standard deviation never errors and forces the
uncertain/oscillating-free outcome shown in the last conjunct. -/
theorem c9_oscillation_decision_table (s : List ℚ) (hlen : 20 ≤ s.length) :
    (detectOscillationState s = MarketState.trending ↔
      IsTrendingWindow (lastN 20 s) ∧ AbsZScoreGt (lastN 20 s) (3 / 2)) ∧
    (detectOscillationState s = MarketState.meanReversionOpportunity ↔
      ¬ (IsTrendingWindow (lastN 20 s) ∧ AbsZScoreGt (lastN 20 s) (3 / 2)) ∧
        AbsZScoreGt (lastN 20 s) 2) ∧
    (detectOscillationState s = MarketState.oscillating ↔
      ¬ (IsTrendingWindow (lastN 20 s) ∧ AbsZScoreGt (lastN 20 s) (3 / 2)) ∧
        ¬ AbsZScoreGt (lastN 20 s) 2 ∧
        3 ≤ countDirectionChanges (lastN 20 s) ∧ VolatilityGtHalf (lastN 20 s)) ∧
    (detectOscillationState s = MarketState.uncertain ↔
      ¬ (IsTrendingWindow (lastN 20 s) ∧ AbsZScoreGt (lastN 20 s) (3 / 2)) ∧
        ¬ AbsZScoreGt (lastN 20 s) 2 ∧
        ¬ (3 ≤ countDirectionChanges (lastN 20 s) ∧ VolatilityGtHalf (lastN 20 s))) ∧
    (sampleVariance (lastN 20 s) = 0 → detectOscillationState s = MarketState.uncertain) := by
  have e32 : AbsZScoreGt (lastN 20 s) (3 / 2) ↔ AbsZSqGt (lastN 20 s) (3 / 2) :=
    absZScoreGt_iff (lastN 20 s) (3 / 2) (by norm_num)
  have e2 : AbsZScoreGt (lastN 20 s) 2 ↔ AbsZSqGt (lastN 20 s) 2 :=
    absZScoreGt_iff (lastN 20 s) 2 (by norm_num)
  have ev : VolatilityGtHalf (lastN 20 s) ↔ (1 / 4 : ℚ) < sampleVariance (lastN 20 s) :=
    volatilityGtHalf_iff (lastN 20 s)
  refine ⟨?_, ?_, ?_, ?_, ?_⟩
  case _ =>
    show classifyWindow (lastN 20 s) = _ ↔ _
    unfold classifyWindow
    split_ifs with h1 h2 h3 <;> simp_all
  case _ =>
    show classifyWindow (lastN 20 s) = _ ↔ _
    unfold classifyWindow
    split_ifs with h1 h2 h3 <;> simp_all
  case _ =>
    show classifyWindow (lastN 20 s) = _ ↔ _
    unfold classifyWindow
    split_ifs with h1 h2 h3 <;> simp_all
  case _ =>
    show classifyWindow (lastN 20 s) = _ ↔ _
    unfold classifyWindow
    split_ifs with h1 h2 h3 <;> simp_all
  case _ =>
    intro h0
    show classifyWindow (lastN 20 s) = _
    unfold classifyWindow
    split_ifs with h1 h2 h3
    · exact absurd h1.2.1 (by rw [h0]; exact lt_irrefl 0)
    · exact absurd h2.1 (by rw [h0]; exact lt_irrefl 0)
    · exact absurd h3.2 (by rw [h0]; norm_num)
    · rfl

/-- Witness for C9: the constant series satisfies the lookback
hypothesis, and the trending characterisation holds for it. -/
theorem c9_oscillation_decision_table_witness :
    20 ≤ c9series.length ∧
      (detectOscillationState c9series = MarketState.trending ↔
        IsTrendingWindow (lastN 20 c9series) ∧ AbsZScoreGt (lastN 20 c9series) (3 / 2)) :=
  ⟨by decide, (c9_oscillation_decision_table c9series (by decide)).1⟩

/-- Claim C7 amended: the count cap and the cooling window are hard
gates evaluated before any sizing arithmetic (the result is blocked
whatever the volume, event or market data); every plan returned has
`additional_lots` at least 0.01 and — provided the original volume is at
least the 0.01 minimum lot — at most the original volume. -/
theorem c7_dynamic_reinforcement_gates_and_bounds
    (cfg : DynConfig) (hist : Option ReinforcementRecord) (volume : ℚ)
    (ekind : EventKind) (prio : EventPriority) (spread : Option ℚ)
    (londonHour : ℕ) (now : ℚ) :
    (cfg.maxReinforcements ≤ (hist.map (·.count)).getD 0 →
      calculateDynamicReinforcement cfg hist volume ekind prio spread londonHour now =
        (none, .maximumReached)) ∧
    (∀ lt, (hist.map (·.count)).getD 0 < cfg.maxReinforcements →
      hist.bind (·.lastTime) = some lt →
      (now - lt) / 60 < cfg.coolingPeriodMinutes →
      calculateDynamicReinforcement cfg hist volume ekind prio spread londonHour now =
        (none, .coolingActive)) ∧
    (1 / 100 ≤ volume →
      ∀ plan,
        (calculateDynamicReinforcement cfg hist volume ekind prio spread londonHour now).1 =
          some plan →
        1 / 100 ≤ plan.additionalLots ∧ plan.additionalLots ≤ volume) := by
  refine ⟨?_, ?_, ?_⟩
  · intro hcount
    unfold calculateDynamicReinforcement
    rw [if_pos hcount]
  · intro lt hcount hlast hcool
    unfold calculateDynamicReinforcement
    rw [if_neg (not_le.mpr hcount), hlast]
    simp only [decide_eq_true_eq]
    rw [if_pos hcool]
  · intro hvol plan hplan
    unfold calculateDynamicReinforcement at hplan
    by_cases hcount : cfg.maxReinforcements ≤ (hist.map (·.count)).getD 0
    · rw [if_pos hcount] at hplan
      simp at hplan
    · rw [if_neg hcount] at hplan
      rcases hlast : hist.bind (·.lastTime) with _ | lt
      · rw [hlast] at hplan
        simp only [if_neg Bool.false_ne_true, Option.some.injEq] at hplan
        subst hplan
        constructor
        · exact le_max_left _ _
        · exact max_le hvol (min_le_right _ _)
      · rw [hlast] at hplan
        by_cases hcool : (now - lt) / 60 < cfg.coolingPeriodMinutes
        · simp [hcool] at hplan
        · have hdec : decide ((now - lt) / 60 < cfg.coolingPeriodMinutes) = false := by
            simpa using hcool
          dsimp only at hplan
          rw [hdec] at hplan
          simp only [if_neg Bool.false_ne_true, Option.some.injEq] at hplan
          subst hplan
          constructor
          · exact le_max_left _ _
          · exact max_le hvol (min_le_right _ _)

/-- Witness for the amended C7: a record at the count cap blocks; a
record reinforced 5 minutes ago blocks for cooling; with no history, a
1-lot position and a medium price-movement event at London hour 10 the
returned plan of 0.3 lots lies within the clamp bounds. -/
theorem c7_dynamic_reinforcement_gates_and_bounds_witness :
    calculateDynamicReinforcement defaultDynConfig (some ⟨3, none, 0⟩) 1
        EventKind.priceMovement EventPriority.medium none 10 0 =
      (none, DynReinforceStatus.maximumReached) ∧
    calculateDynamicReinforcement defaultDynConfig (some ⟨1, some 0, 1 / 2⟩) 1
        EventKind.priceMovement EventPriority.medium none 10 300 =
      (none, DynReinforceStatus.coolingActive) ∧
    ((1 : ℚ) / 100 ≤ DynPlan.additionalLots ⟨3 / 10⟩ ∧
      DynPlan.additionalLots ⟨3 / 10⟩ ≤ 1) := by
  refine ⟨?_, ?_, ?_⟩
  · exact (c7_dynamic_reinforcement_gates_and_bounds defaultDynConfig (some ⟨3, none, 0⟩) 1
      EventKind.priceMovement EventPriority.medium none 10 0).1 (by decide)
  · exact (c7_dynamic_reinforcement_gates_and_bounds defaultDynConfig (some ⟨1, some 0, 1 / 2⟩) 1
      EventKind.priceMovement EventPriority.medium none 10 300).2.1 0 (by decide) rfl
      (by norm_num [defaultDynConfig])
  · refine (c7_dynamic_reinforcement_gates_and_bounds defaultDynConfig none 1
      EventKind.priceMovement EventPriority.medium none 10 0).2.2 (by norm_num) ⟨3 / 10⟩ ?_
    norm_num [calculateDynamicReinforcement, eventMultiplier, sessionMultiplier,
      volatilityAdjustment, defaultDynConfig, min_def, max_def]

/-- Counterexample to claim C7 as stated: for an original volume of
0.005 lots (below the 0.01 minimum), the returned plan's
`additional_lots` is clamped UP to 0.01, which exceeds the original
volume, so the plan is not within `[0.01, original volume]`. -/
theorem c7_counterexample_small_volume :
    (calculateDynamicReinforcement defaultDynConfig none (1 / 200)
        EventKind.priceMovement EventPriority.medium none 10 0).1 =
      some ⟨1 / 100⟩ ∧ ¬ ((1 : ℚ) / 100 ≤ 1 / 200) := by
  constructor
  · norm_num [calculateDynamicReinforcement, eventMultiplier, sessionMultiplier,
      volatilityAdjustment, defaultDynConfig, min_def, max_def]
  · norm_num

/-- Claim C4 amended: whenever `should_reinforce_position` returns a
reinforcement plan and the position's volume is non-negative, the plan's
`additional_lots` never exceeds the original volume.  (The claim's
second part — no plan when the reinforcement count is at the configured
maximum — does not hold of this function; see the counterexample.) -/
theorem c4_reinforcement_plan_capped (pos : MTPosition)
    (strength : List Char → ℚ) (md : List Char → Option ℚ) (now : ℚ)
    (plan : ReinforcementPlan)
    (hvol : 0 ≤ pos.volume)
    (hp : (shouldReinforcePosition pos (some strength) md now).2.2 = some plan) :
    plan.additionalLots ≤ pos.volume := by
  have hhalf : pos.volume * (1 / 2) ≤ pos.volume := by linarith
  unfold shouldReinforcePosition at hp
  dsimp only at hp
  by_cases hlen : 6 ≤ (cleanSymbol pos.symbol).length
  · rw [if_pos hlen] at hp
    split at hp
    · rename_i p hplan
      simp only [Option.some.injEq] at hp
      subst hp
      repeat' split at hplan
      all_goals simp only [Option.some.injEq, reduceCtorEq] at hplan
      all_goals rw [← hplan]
      all_goals first
        | exact min_le_right _ _
        | exact le_trans (min_le_right _ _) hhalf
    · rename_i hplan
      repeat' split at hp
      all_goals simp at hp
  · rw [if_neg hlen] at hp
    simp at hp

/-- Counterexample to claim C4 as stated: `should_reinforce_position`
consults no reinforcement count, so even when the position's recorded
reinforcement count equals the configured maximum it still returns a
plan.  The count cap is enforced only by the separate
`calculate_dynamic_reinforcement` (see C7). -/
theorem c4_counterexample_count_not_consulted :
    c4record.count = defaultDynConfig.maxReinforcements ∧
      (shouldReinforcePosition c4pos (some c4strength) c4md 600).2.2 =
        some ⟨PlanType.compensateEarlyEntry, 1 / 2, 50⟩ := by
  constructor
  · rfl
  · have hdetect : detectEarlyLateEntry c4pos c4md 600 = (true, TimingType.tooEarly, 50) := by
      norm_num [detectEarlyLateEntry, c4pos, c4md]
    have hclean : cleanSymbol (MTPosition.symbol c4pos) = ['E','U','R','U','S','D'] := rfl
    simp only [shouldReinforcePosition, hclean, hdetect]
    norm_num [c4pos, c4strength, min_def]
    have hch : ¬('U' = 'E' ∧ 'S' = 'U' ∧ 'D' = 'R') := by decide
    simp [hch]

/-- Witness for the amended C4 at the counterexample inputs: the
returned plan's half-lot size does not exceed the original volume. -/
theorem c4_reinforcement_plan_capped_witness :
    ReinforcementPlan.additionalLots ⟨PlanType.compensateEarlyEntry, 1 / 2, 50⟩ ≤
      MTPosition.volume c4pos := by
  refine c4_reinforcement_plan_capped c4pos c4strength c4md 600
    ⟨PlanType.compensateEarlyEntry, 1 / 2, 50⟩ (by norm_num [c4pos]) ?_
  have hdetect : detectEarlyLateEntry c4pos c4md 600 = (true, TimingType.tooEarly, 50) := by
    norm_num [detectEarlyLateEntry, c4pos, c4md]
  have hclean : cleanSymbol (MTPosition.symbol c4pos) = ['E','U','R','U','S','D'] := rfl
  simp only [shouldReinforcePosition, hclean, hdetect]
  norm_num [c4pos, c4strength, min_def]
  have hch : ¬('U' = 'E' ∧ 'S' = 'U' ∧ 'D' = 'R') := by decide
  simp [hch]
